import Mathlib

/-!
Shallow embedding of the GELF client in `client.go` (package golf).

The embedding covers: the compression constants, `Dial`'s host/port and
compress-query handling, `QueueMsg`, the `Close` finalization, the
`writeMsg` dispatch into the compressor pools and the chunker, and an
operational small-step model of the two background workers
(`queueReceiver`, `msgSender`) together with `Close`'s two-phase shutdown
handshake.  Go time values are abstracted to `Nat`; the network connection
to `Unit`; errors to `Option String` (`none` = Go's `nil` error).
-/

namespace Golf

/-- Compression constants from the `const` block (lines 17-21):
`COMP_NONE = iota` (0), `COMP_GZIP` (1), `COMP_ZLIB` (2). -/
def COMP_NONE : Nat := 0

/-- gzip compression (second `iota` value). -/
def COMP_GZIP : Nat := 1

/-- zlib compression (third `iota` value). -/
def COMP_ZLIB : Nat := 2

/-- Modelled from the spec: the `Message` record is defined outside the
visible source (`src/` holds only `client.go`; the file defining `Message`
and `generateMsgJson` is missing).  Per the spec (section 3), a message has
a creation timestamp, assigned by the client when absent, plus arbitrary
caller-supplied fields kept here as an abstract association list.  The
timestamp is abstracted to `Nat`. -/
structure Message where
  Timestamp : Option Nat
  fields : List (String × String)
deriving DecidableEq

/-- Capacity of the intake channel: `msgChan: make(chan *Message, 500)`
(line 71). -/
def msgChanCap : Nat := 500

/-- The timestamp assignment at the head of `QueueMsg` (lines 184-187):
`if msg.Timestamp == nil { curTime := time.Now(); msg.Timestamp = &curTime }`.
`now` stands for `time.Now()`. -/
def setTimestamp (now : Nat) (msg : Message) : Message :=
  if msg.Timestamp = none then { msg with Timestamp := some now } else msg

/-- `QueueMsg` (lines 183-191): assign the timestamp when unset, then
`c.msgChan <- msg; return nil`.  The buffered channel is modelled by its
list of buffered messages: the send completes (`some`) exactly when the
buffer has room, appending the message at the tail and returning the `nil`
error; a full buffer blocks the caller (`none` = the call has not
completed). -/
def QueueMsg (now : Nat) (msg : Message) (buf : List Message) :
    Option (List Message × Option String) :=
  if buf.length < msgChanCap then
    some (buf ++ [setTimestamp now msg], none)
  else
    none

/-- `strings.Contains(s, ":")` for the one-character pattern `":"`:
membership of the colon among the characters of `s`. -/
def containsColon (s : String) : Bool :=
  s.data.contains ':'

/-- `Dial` lines 92-94: `if !strings.Contains(parsedUri.Host, ":")
{ parsedUri.Host = parsedUri.Host + ":12201" }`.  The result is the address
string handed to `net.Dial`. -/
def dialHost (host : String) : String :=
  if containsColon host then host else host ++ ":12201"

/-- `Dial` lines 103-110: the `switch parsedUri.Query().Get("compress")`
statement.  `q` is the query value (`""` when the key is absent, as
`url.Values.Get` returns); a value outside the three cases falls through
the switch, leaving the configured compression `cur` unchanged.  No case
produces an error. -/
def dialCompress (q : String) (cur : Nat) : Nat :=
  if q = "none" then COMP_NONE
  else if q = "zlib" then COMP_ZLIB
  else if q = "gzip" then COMP_GZIP
  else cur

/-- `Close`, entry check and finalization (lines 145-149 and 173-179),
taken after the two worker handshakes (modelled separately by `step`)
have completed:

    if c.conn == nil { return nil }
    ...handshakes...
    err := c.conn.Close()
    if err != nil { return err }
    c.conn = nil
    return nil

`conn` is the connection field (`none` = Go `nil`), `closeErr` the outcome
of `c.conn.Close()`.  Result: the error `Close` returns, paired with the
`conn` field afterwards.  Note that on a close error the function returns
before `c.conn = nil` executes. -/
def closeRelease (closeErr : Option String) (conn : Option Unit) :
    Option String × Option Unit :=
  match conn with
  | none => (none, none)
  | some u =>
    match closeErr with
    | some e => (some e, some u)
    | none => (none, none)

/-- Effects a `writeMsg` call performs against the compressor pools and the
chunker `c.chnk`.  `compWrite k d` / `compClose k` / `compReset k` are the
`Write`/`Close`/`Reset` calls on the pooled compressor of kind `k`;
`chnkWrite d` is a direct `c.chnk.Write`; `chnkFlush` is `c.chnk.Flush()`. -/
inductive WEvent where
  | compWrite (kind : Nat) (data : String)
  | compClose (kind : Nat)
  | compReset (kind : Nat)
  | chnkWrite (data : String)
  | chnkFlush
deriving DecidableEq

/-- Recognizer for the `chnkFlush` event. -/
def isFlush : WEvent → Bool
  | WEvent.chnkFlush => true
  | _ => false

/-- `writeMsg` (lines 258-279) as the trace of effects it performs, paired
with the error it returns.  The `werr` argument is the behaviour of the
underlying writers (which effect, if any, fails); the source never binds
the error results of `gz.Write`/`gz.Close`/`zz.Write`/`zz.Close`/
`c.chnk.Write`, so `werr` can influence neither the trace nor the result.
`defer c.chnk.Flush()` appends the flush after whichever branch of the
`switch compression` ran (the `default:` branch writes the raw data
straight to the chunker), and the function body ends in `return nil`. -/
def writeMsg (werr : WEvent → Option String) (data : String)
    (compression : Nat) : List WEvent × Option String :=
  let branch :=
    if compression = COMP_GZIP then
      [WEvent.compWrite COMP_GZIP data, WEvent.compClose COMP_GZIP,
       WEvent.compReset COMP_GZIP]
    else if compression = COMP_ZLIB then
      [WEvent.compWrite COMP_ZLIB data, WEvent.compClose COMP_ZLIB,
       WEvent.compReset COMP_ZLIB]
    else
      [WEvent.chnkWrite data]
  (branch ++ [WEvent.chnkFlush], none)

/-- One scheduled action of the concurrent pipeline: the `queueReceiver`
goroutine taking a message from the intake channel (`recvMsg`, lines
196-199) or handling the quit signal (`recvQuit`, lines 200-210), and the
`msgSender` goroutine dispatching the backing-queue head (`sendMsg`, lines
218-234) or polling the quit signal during its idle period (`sendQuit`,
lines 239-253).  An execution is an arbitrary interleaving, i.e. any list
of actions. -/
inductive Act where
  | recvMsg
  | recvQuit
  | sendMsg
  | sendQuit
deriving DecidableEq

/-- The shared state of the pipeline: `intake` is the buffered content of
`msgChan`, `queue` the backing slice `c.queue` (mutations to it are under
`c.queueMutex`, so its updates are atomic steps here), `sent` the
serialized messages handed to `writeMsg` (the transport layer) in order,
and the two flags record that the respective worker has emitted the
ACKNOWLEDGED value 2 on its control channel and returned.  The model
covers the messages enqueued before `Close` is invoked: no `QueueMsg`
action appears during the drain. -/
structure PipeState where
  intake : List Message
  queue : List Message
  sent : List String
  receiverDone : Bool
  senderDone : Bool
deriving DecidableEq

/-- One step of the pipeline, `ser` standing for `generateMsgJson` (whose
defining file is outside `src/`; the dispatcher only examines whether it
returns an error, so it stays an abstract parameter):

* `recvMsg` — `queueReceiver` case `msg := <-c.msgChan` (lines 196-199):
  the intake head is appended at the TAIL of the backing queue.  A returned
  worker (`receiverDone`) reads no more; an empty channel has nothing to
  take.
* `recvQuit` — `queueReceiver` case `quitVal := <-c.queueCtl` with value 1
  (lines 200-210): if `len(c.msgChan) > 0` the worker answers 1
  (CONTINUE_REQUEST, "not yet") and keeps running — the state is
  unchanged; only when the channel is empty at the instant of the check
  does it answer 2 (ACKNOWLEDGED) and return.
* `sendMsg` — `msgSender` busy branch (lines 218-234): pop the HEAD of the
  backing queue under the mutex; a `generateMsgJson` error drops the
  message and continues the loop; otherwise the serialized form is handed
  to `writeMsg` (whose returned error is ignored, lines 232-234) and
  appended to `sent`.
* `sendQuit` — `msgSender` idle branch (lines 239-253): the `select` with
  a `default` case is a no-op unless `Close` has already sent on
  `c.sendCtl`, which it does only after the `queueCtl` handshake finished
  (lines 151-164), i.e. only once `receiverDone` holds; with a pending
  signal the worker answers 1 and keeps running while `len(c.queue) > 0`,
  and answers 2 and returns only when the queue is empty at the instant of
  the check. -/
def step (ser : Message → Option String) : Act → PipeState → PipeState
  | Act.recvMsg, s =>
    if s.receiverDone then s
    else
      match s.intake with
      | [] => s
      | m :: rest => { s with intake := rest, queue := s.queue ++ [m] }
  | Act.recvQuit, s =>
    if s.receiverDone then s
    else if 0 < s.intake.length then s
    else { s with receiverDone := true }
  | Act.sendMsg, s =>
    if s.senderDone then s
    else
      match s.queue with
      | [] => s
      | m :: rest =>
        match ser m with
        | none => { s with queue := rest }
        | some d => { s with queue := rest, sent := s.sent ++ [d] }
  | Act.sendQuit, s =>
    if s.senderDone then s
    else if s.receiverDone = false then s
    else if 0 < s.queue.length then s
    else { s with senderDone := true }

/-- Run a finite schedule of actions from a state. -/
def run (ser : Message → Option String) (acts : List Act) (s : PipeState) :
    PipeState :=
  match acts with
  | [] => s
  | a :: rest => run ser rest (step ser a s)

/-- The state at the instant `Close` is invoked, the messages enqueued
before it still in the intake channel: nothing dispatched yet, both
workers live. -/
def initState (msgs : List Message) : PipeState :=
  ⟨msgs, [], [], false, false⟩

/-- Pipeline invariant: some initial segment `d` of the enqueued messages
has been dispatched — `sent` is exactly its serialized forms in order —
while `queue ++ intake` is the untouched remainder; the receiver returns
only with an empty intake channel, and the sender returns only after the
receiver and with an empty backing queue. -/
def Inv (ser : Message → Option String) (msgs0 : List Message)
    (s : PipeState) : Prop :=
  (∃ d, msgs0 = d ++ s.queue ++ s.intake ∧ s.sent = d.filterMap ser)
  ∧ (s.receiverDone = true → s.intake = [])
  ∧ (s.senderDone = true → s.receiverDone = true ∧ s.queue = [])

/-- Serialization used by concrete executions: the timestamp rendered in
decimal ( `generateMsgJson` succeeding on every message). -/
def serNum (m : Message) : Option String :=
  some (m.Timestamp.getD 0).repr

/-- Serialization that fails on the timestamp 99, for exercising the
dispatcher's error branch. -/
def serNum99 (m : Message) : Option String :=
  if m.Timestamp = some 99 then none else some (m.Timestamp.getD 0).repr

/-- Two concrete messages enqueued before `Close`. -/
def msgsTwo : List Message := [⟨some 1, []⟩, ⟨some 2, []⟩]

/-- A concrete complete drain schedule: the receiver moves both messages,
the sender dispatches both, then each worker acknowledges its quit
signal. -/
def actsDrain : List Act :=
  [Act.recvMsg, Act.recvMsg, Act.sendMsg, Act.sendMsg,
   Act.recvQuit, Act.sendQuit]

/-- A concrete partial schedule, stopped mid-drain. -/
def actsMid : List Act := [Act.recvMsg, Act.sendMsg, Act.recvMsg]

/-- A concrete state whose backing-queue head fails serialization under
`serNum99`. -/
def stateDrop : PipeState :=
  ⟨[], [⟨some 99, []⟩, ⟨some 3, []⟩], ["s1"], false, false⟩

end Golf

namespace Golf

/-- `setTimestamp` leaves a present timestamp and all other fields alone. -/
theorem setTimestamp_fields (now : Nat) (msg : Message) :
    (setTimestamp now msg).fields = msg.fields := by
  unfold setTimestamp
  split <;> rfl

/-- C9: For every URI accepted by Dial whose host part carries no port, the
connection is established to port 12201: when the parsed host contains no
colon, the address handed to `net.Dial` is the host with `":12201"`
appended (hosts that contain a colon but no port, i.e. bare IPv6 literals,
are passed through unchanged and are then rejected by `net.Dial`, so no
connection is established for them). -/
theorem dial_default_port (host : String) (h : containsColon host = false) :
    dialHost host = host ++ ":12201" := by
  unfold dialHost
  rw [h]
  simp

/-- Witness for `dial_default_port` at the concrete host `localhost`. -/
theorem dial_default_port_witness :
    dialHost "localhost" = "localhost" ++ ":12201" :=
  dial_default_port "localhost" (by decide)

/-- C8: the `compress` query values `none`, `zlib` and `gzip` override the
configured compression to the corresponding constant; every other value
(the empty string returned for an absent key included) leaves the
configured value unchanged, and no branch raises an error (`dialCompress`
is a total function into compression kinds with no error component). -/
theorem dial_compress_override (cur : Nat) :
    dialCompress "none" cur = COMP_NONE
    ∧ dialCompress "zlib" cur = COMP_ZLIB
    ∧ dialCompress "gzip" cur = COMP_GZIP
    ∧ dialCompress "" cur = cur
    ∧ (∀ q : String, q ≠ "none" → q ≠ "zlib" → q ≠ "gzip" →
        dialCompress q cur = cur) := by
  refine ⟨rfl, rfl, rfl, rfl, ?_⟩
  intro q h1 h2 h3
  unfold dialCompress
  rw [if_neg h1, if_neg h2, if_neg h3]

/-- Witness for `dial_compress_override` at a concrete configured value and
a concrete unrecognized query value. -/
theorem dial_compress_override_witness :
    dialCompress "none" 7 = COMP_NONE
    ∧ dialCompress "zlib" 7 = COMP_ZLIB
    ∧ dialCompress "gzip" 7 = COMP_GZIP
    ∧ dialCompress "" 7 = 7
    ∧ dialCompress "deflate" 7 = 7 := by
  have h := dial_compress_override 7
  exact ⟨h.1, h.2.1, h.2.2.1, h.2.2.2.1,
    h.2.2.2.2 "deflate" (by decide) (by decide) (by decide)⟩

/-- C1 counterexample: on a client with an active connection whose socket
close fails, `Close` does return the underlying transport error, but the
connection field is NOT cleared — `return err` runs before `c.conn = nil`
— so the claim's "the connection field is reset to absent" is false at
this input. -/
theorem close_error_counterexample :
    (closeRelease (some "boom") (some ())).1 = some "boom"
    ∧ (closeRelease (some "boom") (some ())).2 ≠ none := by
  exact ⟨rfl, by decide⟩

/-- C1 amended: if the socket close fails, `Close` returns the underlying
transport error and the connection field is left set; the field is cleared
only when the close succeeds, and `Close` on a client with no connection is
a no-op returning `nil`. -/
theorem close_error_keeps_conn (e : Option String) (err : String) :
    closeRelease (some err) (some ()) = (some err, some ())
    ∧ closeRelease none (some ()) = (none, none)
    ∧ closeRelease e none = (none, none) :=
  ⟨rfl, rfl, rfl⟩

/-- C5: `writeMsg` returns `nil` for every input, compression kind and
behaviour of the underlying writers: the error results of the compressor
`Write`/`Close` and of the chunker `Write` are discarded inside `writeMsg`
(its trace and result do not depend on `werr`), so `msgSender`'s
write-error branch can never be taken. -/
theorem writeMsg_always_nil :
    ∀ (werr : WEvent → Option String) (data : String) (compression : Nat),
      (writeMsg werr data compression).2 = none := by
  intro werr data compression
  rfl

/-- C6: every `writeMsg` call flushes the chunker exactly once (the only
flush event in the trace is the final one contributed by
`defer c.chnk.Flush()`), the flush comes after the payload has been
written (it is the last event), and for a compression kind other than gzip
and zlib — in particular `COMP_NONE` — the raw serialized bytes go
straight to the chunker with no compression stage. -/
theorem writeMsg_flush_once :
    ∀ (werr : WEvent → Option String) (data : String) (compression : Nat),
      ((writeMsg werr data compression).1.filter isFlush = [WEvent.chnkFlush])
      ∧ ((writeMsg werr data compression).1.getLast? = some WEvent.chnkFlush)
      ∧ ((writeMsg werr data COMP_NONE).1
          = [WEvent.chnkWrite data, WEvent.chnkFlush]) := by
  intro werr data compression
  refine ⟨?_, ?_, rfl⟩
  · unfold writeMsg
    split
    · rfl
    · split <;> rfl
  · unfold writeMsg
    split
    · rfl
    · split <;> rfl

/-- C7: `QueueMsg` assigns the current time to an unset `Timestamp` before
enqueueing, the completed call appends the message to the intake channel
and returns the `nil` error, it blocks exactly when the intake channel
(capacity 500) is full, and it never drops a message while intake has
capacity. -/
theorem queueMsg_spec (now : Nat) (msg : Message) (buf : List Message) :
    (msg.Timestamp = none → (setTimestamp now msg).Timestamp = some now)
    ∧ (QueueMsg now msg buf = none ↔ msgChanCap ≤ buf.length)
    ∧ (∀ r, QueueMsg now msg buf = some r →
        r.2 = none ∧ r.1 = buf ++ [setTimestamp now msg])
    ∧ (buf.length < msgChanCap →
        QueueMsg now msg buf = some (buf ++ [setTimestamp now msg], none)) := by
  refine ⟨?_, ?_, ?_, ?_⟩
  · intro h
    unfold setTimestamp
    rw [if_pos h]
  · unfold QueueMsg
    split
    · rename_i h
      simp [Nat.not_le.mpr h]
    · rename_i h
      simp [Nat.le_of_not_lt (by simpa using h)]
  · intro r hr
    unfold QueueMsg at hr
    split at hr
    · cases hr
      exact ⟨rfl, rfl⟩
    · cases hr
  · intro h
    unfold QueueMsg
    rw [if_pos h]

/-- Witness for `queueMsg_spec`: a message with unset timestamp enqueued
onto a one-element buffer. -/
theorem queueMsg_spec_witness :
    (setTimestamp 42 ⟨none, [("short_message", "hi")]⟩).Timestamp = some 42
    ∧ QueueMsg 42 ⟨none, [("short_message", "hi")]⟩
        [⟨some 1, []⟩]
      = some ([⟨some 1, []⟩, ⟨some 42, [("short_message", "hi")]⟩], none) := by
  have h := queueMsg_spec 42 ⟨none, [("short_message", "hi")]⟩ [⟨some 1, []⟩]
  refine ⟨h.1 rfl, ?_⟩
  have h4 := h.2.2.2 (by decide)
  rw [h4]
  rfl

/-- C10: the only field `QueueMsg` writes through the shared `*Message`
pointer is `Timestamp`, and only when it is `nil`: the caller-visible
fields are unchanged, an already-set timestamp is kept, an unset one
becomes the current time, and the message handed to the channel is this
same updated record. -/
theorem queueMsg_frame (now : Nat) (msg : Message) :
    (setTimestamp now msg).fields = msg.fields
    ∧ ((setTimestamp now msg).Timestamp
        = match msg.Timestamp with
          | none => some now
          | some t => some t) := by
  constructor
  · exact setTimestamp_fields now msg
  · unfold setTimestamp
    cases h : msg.Timestamp <;> simp [h]

/-- The pipeline invariant holds at the instant `Close` is invoked. -/
theorem inv_init (ser : Message → Option String) (msgs : List Message) :
    Inv ser msgs (initState msgs) := by
  refine ⟨⟨[], ?_, ?_⟩, ?_, ?_⟩ <;> simp [initState]

/-- Every pipeline step preserves the invariant. -/
theorem step_inv (ser : Message → Option String) (msgs0 : List Message)
    (a : Act) (s : PipeState) (h : Inv ser msgs0 s) :
    Inv ser msgs0 (step ser a s) := by
  obtain ⟨⟨d, hd, hsent⟩, hrecv, hsend⟩ := h
  cases a with
  | recvMsg =>
    simp only [step]
    split
    · exact ⟨⟨d, hd, hsent⟩, hrecv, hsend⟩
    next hr =>
      split
      · exact ⟨⟨d, hd, hsent⟩, hrecv, hsend⟩
      next m rest hI =>
        refine ⟨⟨d, ?_, hsent⟩, ?_, ?_⟩
        · rw [hd, hI]
          simp
        · intro h'
          exact absurd h' hr
        · intro h'
          exact absurd (hsend h').1 hr
  | recvQuit =>
    simp only [step]
    split
    · exact ⟨⟨d, hd, hsent⟩, hrecv, hsend⟩
    next hr =>
      split
      · exact ⟨⟨d, hd, hsent⟩, hrecv, hsend⟩
      next hlen =>
        have hI : s.intake = [] :=
          List.eq_nil_of_length_eq_zero (Nat.eq_zero_of_not_pos hlen)
        exact ⟨⟨d, hd, hsent⟩, fun _ => hI, fun h' => ⟨rfl, (hsend h').2⟩⟩
  | sendMsg =>
    simp only [step]
    split
    · exact ⟨⟨d, hd, hsent⟩, hrecv, hsend⟩
    next hr =>
      split
      · exact ⟨⟨d, hd, hsent⟩, hrecv, hsend⟩
      next m rest hq =>
        split
        next he =>
          refine ⟨⟨d ++ [m], ?_, ?_⟩, hrecv, ?_⟩
          · rw [hd, hq]
            simp
          · show s.sent = (d ++ [m]).filterMap ser
            rw [hsent]
            simp [List.filterMap_append, List.filterMap_cons, he]
          · intro h'
            exact absurd h' hr
        next v he =>
          refine ⟨⟨d ++ [m], ?_, ?_⟩, hrecv, ?_⟩
          · rw [hd, hq]
            simp
          · show s.sent ++ [v] = (d ++ [m]).filterMap ser
            rw [hsent]
            simp [List.filterMap_append, List.filterMap_cons, he]
          · intro h'
            exact absurd h' hr
  | sendQuit =>
    simp only [step]
    split
    · exact ⟨⟨d, hd, hsent⟩, hrecv, hsend⟩
    next hr =>
      split
      · exact ⟨⟨d, hd, hsent⟩, hrecv, hsend⟩
      next hrd =>
        split
        · exact ⟨⟨d, hd, hsent⟩, hrecv, hsend⟩
        next hql =>
          have hrd' : s.receiverDone = true := by
            cases hb : s.receiverDone
            · exact absurd hb hrd
            · rfl
          have hq : s.queue = [] :=
            List.eq_nil_of_length_eq_zero (Nat.eq_zero_of_not_pos hql)
          exact ⟨⟨d, hd, hsent⟩, fun _ => hrecv hrd', fun _ => ⟨hrd', hq⟩⟩

/-- The invariant is preserved along every schedule. -/
theorem run_inv (ser : Message → Option String) (msgs0 : List Message)
    (acts : List Act) (s : PipeState) (h : Inv ser msgs0 s) :
    Inv ser msgs0 (run ser acts s) := by
  induction acts generalizing s with
  | nil => exact h
  | cons a rest ih => exact ih (step ser a s) (step_inv ser msgs0 a s h)

/-- When serialization succeeds on every element, `filterMap` keeps the
whole list. -/
theorem length_filterMap_of_isSome (ser : Message → Option String)
    (l : List Message) (h : ∀ m ∈ l, (ser m).isSome = true) :
    (l.filterMap ser).length = l.length := by
  induction l with
  | nil => rfl
  | cons m rest ih =>
    obtain ⟨v, hv⟩ :=
      Option.isSome_iff_exists.mp (h m (List.mem_cons_self m rest))
    rw [List.filterMap_cons, hv]
    simp [ih (fun x hx => h x (List.mem_cons_of_mem m hx))]

/-- C2: along every interleaving of the workers with the shutdown
handshake, if `Close` has returned (both workers acknowledged with 2 and
terminated) and no dispatch error occurred, then every message enqueued
before `Close` has been handed to the transport layer — `sent` is exactly
the serialized forms of all enqueued messages and nothing is left in the
intake channel or the backing queue; moreover a worker's quit step sets
its done flag only when its own buffer is empty at the instant of the
check (intake channel for the receiver, backing queue for the sender). -/
theorem close_no_loss (ser : Message → Option String) (msgs0 : List Message)
    (acts : List Act)
    (hser : ∀ m ∈ msgs0, (ser m).isSome = true)
    (hdone : (run ser acts (initState msgs0)).receiverDone = true
      ∧ (run ser acts (initState msgs0)).senderDone = true) :
    (run ser acts (initState msgs0)).sent = msgs0.filterMap ser
    ∧ (run ser acts (initState msgs0)).sent.length = msgs0.length
    ∧ (run ser acts (initState msgs0)).intake = []
    ∧ (run ser acts (initState msgs0)).queue = []
    ∧ (∀ t : PipeState, (step ser Act.recvQuit t).receiverDone = true →
        t.receiverDone = true ∨ t.intake = [])
    ∧ (∀ t : PipeState, (step ser Act.sendQuit t).senderDone = true →
        t.senderDone = true ∨ (t.receiverDone = true ∧ t.queue = [])) := by
  obtain ⟨⟨d, hd, hsent⟩, hrecv, hsend⟩ :=
    run_inv ser msgs0 acts (initState msgs0) (inv_init ser msgs0)
  have hI : (run ser acts (initState msgs0)).intake = [] := hrecv hdone.1
  have hQ : (run ser acts (initState msgs0)).queue = [] := (hsend hdone.2).2
  have hd' : msgs0 = d := by
    rw [hd, hI, hQ]
    simp
  have hsent' : (run ser acts (initState msgs0)).sent = msgs0.filterMap ser := by
    rw [hsent, ← hd']
  refine ⟨hsent', ?_, hI, hQ, ?_, ?_⟩
  · rw [hsent']
    exact length_filterMap_of_isSome ser msgs0 hser
  · intro t ht
    by_cases hb : t.receiverDone = true
    · exact Or.inl hb
    · refine Or.inr ?_
      revert ht
      simp only [step]
      rw [if_neg hb]
      by_cases hl : 0 < t.intake.length
      · rw [if_pos hl]
        intro ht
        exact absurd ht hb
      · rw [if_neg hl]
        intro _
        exact List.eq_nil_of_length_eq_zero (Nat.eq_zero_of_not_pos hl)
  · intro t ht
    by_cases hb : t.senderDone = true
    · exact Or.inl hb
    · refine Or.inr ?_
      revert ht
      simp only [step]
      rw [if_neg hb]
      by_cases hrd : t.receiverDone = false
      · rw [if_pos hrd]
        intro ht
        exact absurd ht hb
      · rw [if_neg hrd]
        by_cases hl : 0 < t.queue.length
        · rw [if_pos hl]
          intro ht
          exact absurd ht hb
        · rw [if_neg hl]
          intro _
          refine ⟨?_, List.eq_nil_of_length_eq_zero (Nat.eq_zero_of_not_pos hl)⟩
          cases hc : t.receiverDone
          · exact absurd hc hrd
          · rfl

/-- Witness for `close_no_loss`: two concrete messages fully drained by a
concrete schedule. -/
theorem close_no_loss_witness :
    (run serNum actsDrain (initState msgsTwo)).sent = msgsTwo.filterMap serNum
    ∧ (run serNum actsDrain (initState msgsTwo)).sent.length = msgsTwo.length
    ∧ (run serNum actsDrain (initState msgsTwo)).intake = []
    ∧ (run serNum actsDrain (initState msgsTwo)).queue = [] := by
  have h := close_no_loss serNum msgsTwo actsDrain (by decide) (by decide)
  exact ⟨h.1, h.2.1, h.2.2.1, h.2.2.2.1⟩

/-- C3: messages reach the transport in QueueMsg order — along every
interleaving, `sent` is the in-order serialization of an initial segment
of the enqueued sequence; structurally, the intake worker appends the
intake head at the TAIL of the backing queue and the dispatcher always
removes the HEAD of the backing queue. -/
theorem fifo_order (ser : Message → Option String) (msgs0 : List Message)
    (acts : List Act) :
    (∃ k, (run ser acts (initState msgs0)).sent
      = (msgs0.take k).filterMap ser)
    ∧ (∀ t : PipeState, ∀ m : Message, ∀ rest : List Message,
        t.receiverDone = false → t.intake = m :: rest →
        step ser Act.recvMsg t
          = { t with intake := rest, queue := t.queue ++ [m] })
    ∧ (∀ t : PipeState, ∀ m : Message, ∀ rest : List Message,
        t.senderDone = false → t.queue = m :: rest →
        (step ser Act.sendMsg t).queue = rest) := by
  refine ⟨?_, ?_, ?_⟩
  · obtain ⟨⟨d, hd, hsent⟩, -, -⟩ :=
      run_inv ser msgs0 acts (initState msgs0) (inv_init ser msgs0)
    refine ⟨d.length, ?_⟩
    rw [hsent, hd, List.append_assoc, List.take_left]
  · intro t m rest hr hI
    simp only [step]
    rw [if_neg (by simp [hr]), hI]
  · intro t m rest hs hq
    simp only [step]
    rw [if_neg (by simp [hs]), hq]
    cases he : ser m <;> simp [he]

/-- Witness for `fifo_order`: a concrete partial schedule whose transport
output is an in-order initial segment of the enqueued sequence. -/
theorem fifo_order_witness :
    ∃ k, (run serNum actsMid (initState msgsTwo)).sent
      = (msgsTwo.take k).filterMap serNum :=
  (fifo_order serNum msgsTwo actsMid).1

/-- C4: when the dispatcher pops a message from the backing-queue head and
its serialization fails, the message is dropped — removed from the queue,
nothing appended to the transport output, no error surfaced anywhere in
the state — and the dispatch loop continues (the sender has not
terminated). -/
theorem dispatch_error_drops (ser : Message → Option String) (s : PipeState)
    (m : Message) (rest : List Message)
    (hs : s.senderDone = false) (hq : s.queue = m :: rest)
    (he : ser m = none) :
    step ser Act.sendMsg s = { s with queue := rest }
    ∧ (step ser Act.sendMsg s).sent = s.sent
    ∧ (step ser Act.sendMsg s).senderDone = false := by
  have h1 : step ser Act.sendMsg s = { s with queue := rest } := by
    simp only [step]
    rw [if_neg (by simp [hs]), hq]
    simp [he]
  refine ⟨h1, ?_, ?_⟩
  · rw [h1]
  · rw [h1]
    exact hs

/-- Witness for `dispatch_error_drops`: a concrete state whose queue head
fails serialization under `serNum99`. -/
theorem dispatch_error_drops_witness :
    step serNum99 Act.sendMsg stateDrop
      = { stateDrop with queue := [⟨some 3, []⟩] } :=
  (dispatch_error_drops serNum99 stateDrop ⟨some 99, []⟩ [⟨some 3, []⟩]
    rfl rfl (by decide)).1

end Golf
